import Mathlib

/-!
Shallow embedding of the `futures-lite` future combinators
(`src/future.rs`): `TryZip`, `Race`, `PollOnce`, `YieldNow` and the
blocking driver `block_on`.

A child future is modelled as a function `Nat → Poll α` giving the result
of its n-th poll (0-indexed by the number of times it has been polled so
far).  Each combinator's `poll` becomes a pure function on an explicit
state; the state additionally records, for each child, how many times it
has been polled, so that claims of the form "this child is not polled"
are expressible as poll-count preservation.  The random boolean drawn by
`Race::poll` (`fastrand::bool()`) and the `RefCell` borrow outcome seen
by `block_on` are external inputs and appear as explicit parameters.
-/

namespace FuturesLite

/-- Rust's `core::task::Poll`. -/
inductive Poll (α : Type) where
  | Ready : α → Poll α
  | Pending : Poll α
deriving DecidableEq, Repr

/-- Rust's `Result<T, E>`. -/
inductive Result (T E : Type) where
  | Ok : T → Result T E
  | Err : E → Result T E
deriving DecidableEq, Repr

/-! ## TryZip (`src/future.rs` lines 258-327) -/

/-- State of a `TryZip` combinator: the two `Option` output slots
(`output1`, `output2` fields of the Rust struct) plus, as
instrumentation, the number of times each child future has been
polled. -/
structure TryZipState (T1 T2 E : Type) where
  count1 : Nat
  count2 : Nat
  output1 : Option (Result T1 E)
  output2 : Option (Result T2 E)
deriving DecidableEq, Repr

/-- `TryZip` state as built by `try_zip()`: empty slots, no polls yet. -/
def tryZipInit (T1 T2 E : Type) : TryZipState T1 T2 E :=
  ⟨0, 0, none, none⟩

/-- Outcome of one `TryZip::poll` call.  `Panic` marks execution of one
of the `unreachable!()` arms in the final unwrapping. -/
inductive TZPoll (T1 T2 E : Type) where
  | Ready : Result (T1 × T2) E → TZPoll T1 T2 E
  | Pending : TZPoll T1 T2 E
  | Panic : TZPoll T1 T2 E
deriving DecidableEq, Repr

/-- First block of `TryZip::poll`: if `output1` is empty, poll
`future1`; store a success into the slot, report an error for early
return (`some e`).  The child's poll count is bumped whenever it is
polled, including on the error path. -/
def tryZipStep1 {T1 T2 E : Type} (f1 : Nat → Poll (Result T1 E))
    (s : TryZipState T1 T2 E) : TryZipState T1 T2 E × Option E :=
  match s.output1 with
  | none =>
    match f1 s.count1 with
    | .Ready (.Ok t) =>
      ({ s with count1 := s.count1 + 1, output1 := some (.Ok t) }, none)
    | .Ready (.Err e) => ({ s with count1 := s.count1 + 1 }, some e)
    | .Pending => ({ s with count1 := s.count1 + 1 }, none)
  | some _ => (s, none)

/-- Second block of `TryZip::poll`, same for `future2`/`output2`. -/
def tryZipStep2 {T1 T2 E : Type} (f2 : Nat → Poll (Result T2 E))
    (s : TryZipState T1 T2 E) : TryZipState T1 T2 E × Option E :=
  match s.output2 with
  | none =>
    match f2 s.count2 with
    | .Ready (.Ok t) =>
      ({ s with count2 := s.count2 + 1, output2 := some (.Ok t) }, none)
    | .Ready (.Err e) => ({ s with count2 := s.count2 + 1 }, some e)
    | .Pending => ({ s with count2 := s.count2 + 1 }, none)
  | some _ => (s, none)

/-- Final block of `TryZip::poll`: if both slots are filled, `take` both
and unwrap; an `Err` found in a slot runs an `unreachable!()` arm,
modelled as `Panic`.  Otherwise `Pending`. -/
def tryZipFinish {T1 T2 E : Type} (s : TryZipState T1 T2 E) :
    TZPoll T1 T2 E × TryZipState T1 T2 E :=
  match s.output1, s.output2 with
  | some res1, some res2 =>
    let s3 := { s with output1 := none, output2 := none }
    match res1, res2 with
    | .Ok t1, .Ok t2 => (.Ready (.Ok (t1, t2)), s3)
    | _, _ => (.Panic, s3)
  | _, _ => (.Pending, s)

/-- `TryZip::poll` (`src/future.rs` lines 296-326): run the two child
blocks in order, returning early with the first error observed, then
the completion check. -/
def tryZipPoll {T1 T2 E : Type} (f1 : Nat → Poll (Result T1 E))
    (f2 : Nat → Poll (Result T2 E)) (s : TryZipState T1 T2 E) :
    TZPoll T1 T2 E × TryZipState T1 T2 E :=
  match tryZipStep1 f1 s with
  | (s1, some e) => (.Ready (.Err e), s1)
  | (s1, none) =>
    match tryZipStep2 f2 s1 with
    | (s2, some e) => (.Ready (.Err e), s2)
    | (s2, none) => tryZipFinish s2

/-- State of `TryZip` after `n` poll calls, starting from the freshly
constructed state. -/
def tryZipStates {T1 T2 E : Type} (f1 : Nat → Poll (Result T1 E))
    (f2 : Nat → Poll (Result T2 E)) : Nat → TryZipState T1 T2 E
  | 0 => tryZipInit T1 T2 E
  | n + 1 => (tryZipPoll f1 f2 (tryZipStates f1 f2 n)).2

/-! ## Race (`src/future.rs` lines 350-397) -/

/-- Instrumented state of a `Race` combinator: how many times each
child has been polled (the Rust struct itself has no state beyond the
children). -/
structure RaceState where
  count1 : Nat
  count2 : Nat
deriving DecidableEq, Repr

/-- `Race::poll` (`src/future.rs` lines 377-396).  `b` is the value of
`fastrand::bool()` drawn on this call: `true` polls `future1` first,
`false` polls `future2` first; the first `Ready` child's value is
returned without polling the other. -/
def racePoll {T : Type} (f1 f2 : Nat → Poll T) (b : Bool)
    (s : RaceState) : Poll T × RaceState :=
  if b then
    match f1 s.count1 with
    | .Ready t => (.Ready t, { s with count1 := s.count1 + 1 })
    | .Pending =>
      match f2 s.count2 with
      | .Ready t => (.Ready t, ⟨s.count1 + 1, s.count2 + 1⟩)
      | .Pending => (.Pending, ⟨s.count1 + 1, s.count2 + 1⟩)
  else
    match f2 s.count2 with
    | .Ready t => (.Ready t, { s with count2 := s.count2 + 1 })
    | .Pending =>
      match f1 s.count1 with
      | .Ready t => (.Ready t, ⟨s.count1 + 1, s.count2 + 1⟩)
      | .Pending => (.Pending, ⟨s.count1 + 1, s.count2 + 1⟩)

/-! ## PollOnce (`src/future.rs` lines 126-161) -/

/-- `PollOnce::poll` (`src/future.rs` lines 154-160): poll the wrapped
child once at its current poll count; `Ready t` becomes
`Ready (some t)`, `Pending` becomes `Ready none`.  Returns the updated
poll count of the child. -/
def pollOncePoll {T : Type} (f : Nat → Poll T) (count : Nat) :
    Poll (Option T) × Nat :=
  match f count with
  | .Ready t => (.Ready (some t), count + 1)
  | .Pending => (.Ready none, count + 1)

/-! ## YieldNow (`src/future.rs` lines 199-220) -/

/-- State of `YieldNow`: the `bool` field of the Rust struct, plus, as
instrumentation, the number of times `cx.waker().wake_by_ref()` has
been invoked. -/
structure YieldNowState where
  fired : Bool
  wakes : Nat
deriving DecidableEq, Repr

/-- `yield_now()` constructor: `YieldNow(false)`, no wakes yet. -/
def yieldNowInit : YieldNowState := ⟨false, 0⟩

/-- `YieldNow::poll` (`src/future.rs` lines 211-219): on the first call
set the flag, wake, return `Pending`; afterwards return `Ready ()`. -/
def yieldNowPoll (s : YieldNowState) : Poll Unit × YieldNowState :=
  if !s.fired then (.Pending, ⟨true, s.wakes + 1⟩)
  else (.Ready (), s)

/-! ## block_on (`src/future.rs` lines 61-112) -/

/-- Allocation of a `(Parker, Waker)` pair (`parker_and_waker` in
`block_on`): pairs are identified by allocation order, so a fresh
allocation returns the next unused id. -/
def parkerAndWaker (nextId : Nat) : Nat × Nat := (nextId, nextId + 1)

/-- The thread-local `CACHE`: the id of the cached `(Parker, Waker)`
pair and whether an outer `block_on` invocation currently holds the
`RefCell` borrow (`try_borrow_mut` fails exactly when it does). -/
structure DriverCache where
  pairId : Nat
  borrowed : Bool
deriving DecidableEq, Repr

/-- The poll loop of `block_on`: poll the future repeatedly (parking
between `Pending` results) until it is `Ready`; `fuel` bounds the
number of polls so the loop is total, `none` meaning the future was
still pending after `fuel` polls. -/
def pollLoop {T : Type} (f : Nat → Poll T) : Nat → Nat → Option T
  | 0, _ => none
  | fuel + 1, n =>
    match f n with
    | .Ready t => some t
    | .Pending => pollLoop f fuel (n + 1)

/-- `block_on` (`src/future.rs` lines 80-111): try to borrow the cached
pair; on success run the poll loop with the cached pair, on failure
(a reentrant call) allocate a fresh pair with `parkerAndWaker` and run
the loop with it.  The future `f` takes the id of the pair whose waker
is in its context, then its poll index.  Returns the loop result and
the id of the pair that was used. -/
def block_on {T : Type} (cache : DriverCache) (nextId : Nat)
    (f : Nat → Nat → Poll T) (fuel : Nat) : Option T × Nat :=
  if cache.borrowed then
    let (fresh, _) := parkerAndWaker nextId
    (pollLoop (f fresh) fuel 0, fresh)
  else
    (pollLoop (f cache.pairId) fuel 0, cache.pairId)

/-! ## Derived notions used by the claims -/

/-- A single `TryZip` output slot never holds an `Err`. -/
def slotOk {T E : Type} : Option (Result T E) → Prop
  | none => True
  | some (.Ok _) => True
  | some (.Err _) => False

/-- Both `TryZip` output slots hold only `Ok` values. -/
def slotsOk {T1 T2 E : Type} (s : TryZipState T1 T2 E) : Prop :=
  slotOk s.output1 ∧ slotOk s.output2

/-- A child future that is pending on its first `k` polls and then
completes with `v` on every later poll: the canonical shape of a child
that eventually completes. -/
def pendUntil {α : Type} (k : Nat) (v : α) : Nat → Poll α :=
  fun n => if n < k then .Pending else .Ready v

/-- The state of a `TryZip` of two `pendUntil` children after `m` poll
calls (valid while `m ≤ max k1 k2`, i.e. before the completing call):
each count advances by one per call until the slot fills on call `k`,
and each slot is filled exactly after its child's completing call. -/
def tzRunState {T1 T2 E : Type} (k1 k2 : Nat) (t1 : T1) (t2 : T2)
    (m : Nat) : TryZipState T1 T2 E :=
  ⟨min m (k1 + 1), min m (k2 + 1),
   if k1 < m then some (.Ok t1) else none,
   if k2 < m then some (.Ok t2) else none⟩

/-! ## Helper lemmas about the TryZip blocks -/

/-- The first block of `TryZip::poll` touches only `count1`/`output1`. -/
theorem tryZipStep1_frame {T1 T2 E : Type} (f1 : Nat → Poll (Result T1 E))
    (s : TryZipState T1 T2 E) :
    (tryZipStep1 f1 s).1.count2 = s.count2 ∧
    (tryZipStep1 f1 s).1.output2 = s.output2 := by
  rcases hs : s.output1 with _ | r
  · rcases hf : f1 s.count1 with t | _
    · rcases t with t | e <;> simp [tryZipStep1, hs, hf]
    · simp [tryZipStep1, hs, hf]
  · simp [tryZipStep1, hs]

/-- The second block of `TryZip::poll` touches only `count2`/`output2`. -/
theorem tryZipStep2_frame {T1 T2 E : Type} (f2 : Nat → Poll (Result T2 E))
    (s : TryZipState T1 T2 E) :
    (tryZipStep2 f2 s).1.count1 = s.count1 ∧
    (tryZipStep2 f2 s).1.output1 = s.output1 := by
  rcases hs : s.output2 with _ | r
  · rcases hf : f2 s.count2 with t | _
    · rcases t with t | e <;> simp [tryZipStep2, hs, hf]
    · simp [tryZipStep2, hs, hf]
  · simp [tryZipStep2, hs]

/-- A filled slot makes the first block a no-op. -/
theorem tryZipStep1_skip {T1 T2 E : Type} (f1 : Nat → Poll (Result T1 E))
    (s : TryZipState T1 T2 E) (r : Result T1 E) (h : s.output1 = some r) :
    tryZipStep1 f1 s = (s, none) := by
  simp [tryZipStep1, h]

/-- A filled slot makes the second block a no-op. -/
theorem tryZipStep2_skip {T1 T2 E : Type} (f2 : Nat → Poll (Result T2 E))
    (s : TryZipState T1 T2 E) (r : Result T2 E) (h : s.output2 = some r) :
    tryZipStep2 f2 s = (s, none) := by
  simp [tryZipStep2, h]

/-- The final block of `TryZip::poll` does not change the poll counts. -/
theorem tryZipFinish_frame {T1 T2 E : Type} (s : TryZipState T1 T2 E) :
    (tryZipFinish s).2.count1 = s.count1 ∧
    (tryZipFinish s).2.count2 = s.count2 := by
  rcases h1 : s.output1 with _ | r1 <;> rcases h2 : s.output2 with _ | r2
  · simp [tryZipFinish, h1, h2]
  · simp [tryZipFinish, h1, h2]
  · simp [tryZipFinish, h1, h2]
  · rcases r1 with t1 | e1 <;> rcases r2 with t2 | e2 <;>
      simp [tryZipFinish, h1, h2]

/-! ## Claim theorems -/

/-- C6: starting from the freshly constructed state (flag `false`, no
wakes), the first poll of `YieldNow` sets the flag, wakes exactly once
and returns `Pending`; the second poll returns `Ready ()` without a
further wake. -/
theorem yieldNow_two_poll_lifecycle :
    yieldNowPoll yieldNowInit = (.Pending, ⟨true, 1⟩) ∧
    yieldNowPoll ⟨true, 1⟩ = (.Ready (), ⟨true, 1⟩) := by
  constructor <;> rfl

/-- C5: a single `PollOnce::poll` call polls the wrapped child exactly
once (the count advances by exactly one), never returns `Pending`, maps
a child completion `t` to `Ready (some t)` and a pending child to
`Ready none`. -/
theorem pollOnce_single_poll {T : Type} (f : Nat → Poll T) (c : Nat) :
    (pollOncePoll f c).2 = c + 1 ∧
    (pollOncePoll f c).1 ≠ .Pending ∧
    (∀ t, f c = .Ready t → pollOncePoll f c = (.Ready (some t), c + 1)) ∧
    (f c = .Pending → pollOncePoll f c = (.Ready none, c + 1)) := by
  rcases hf : f c with t | _ <;>
    simp [pollOncePoll, hf]

/-- Witness for C5: the one-shot wrapper over an immediately ready
child with value 42 yields `Some 42`, over a pending child `None`. -/
theorem pollOnce_single_poll_witness :
    pollOncePoll (fun _ => Poll.Ready 42) 0 = (.Ready (some 42), 1) ∧
    pollOncePoll (fun _ => (Poll.Pending : Poll Nat)) 0 = (.Ready none, 1) :=
  ⟨(pollOnce_single_poll (fun _ => Poll.Ready 42) 0).2.2.1 42 rfl,
   (pollOnce_single_poll (fun _ => (Poll.Pending : Poll Nat)) 0).2.2.2 rfl⟩

/-- C8: racing a child that is ready with value 1 against a child that
never completes yields `Ready 1` on every poll, for both values of the
random boolean and at any poll counts. -/
theorem race_ready_vs_never (b : Bool) (c1 c2 : Nat) :
    (racePoll (fun _ => Poll.Ready 1) (fun _ => (Poll.Pending : Poll Nat))
        b ⟨c1, c2⟩).1 = Poll.Ready 1 := by
  cases b <;> simp [racePoll]

/-- C2: for each value of the random boolean drawn on a call,
`Race::poll` polls the first-chosen child; a completion is returned
without polling the other child (its count is unchanged); otherwise the
second child is polled and its completion returned; otherwise the call
is `Pending`. -/
theorem racePoll_order_spec {T : Type} (f1 f2 : Nat → Poll T)
    (s : RaceState) :
    (∀ t, f1 s.count1 = .Ready t →
      racePoll f1 f2 true s = (.Ready t, ⟨s.count1 + 1, s.count2⟩)) ∧
    (f1 s.count1 = .Pending → ∀ t, f2 s.count2 = .Ready t →
      racePoll f1 f2 true s = (.Ready t, ⟨s.count1 + 1, s.count2 + 1⟩)) ∧
    (f1 s.count1 = .Pending → f2 s.count2 = .Pending →
      racePoll f1 f2 true s = (.Pending, ⟨s.count1 + 1, s.count2 + 1⟩)) ∧
    (∀ t, f2 s.count2 = .Ready t →
      racePoll f1 f2 false s = (.Ready t, ⟨s.count1, s.count2 + 1⟩)) ∧
    (f2 s.count2 = .Pending → ∀ t, f1 s.count1 = .Ready t →
      racePoll f1 f2 false s = (.Ready t, ⟨s.count1 + 1, s.count2 + 1⟩)) ∧
    (f2 s.count2 = .Pending → f1 s.count1 = .Pending →
      racePoll f1 f2 false s = (.Pending, ⟨s.count1 + 1, s.count2 + 1⟩)) := by
  refine ⟨?_, ?_, ?_, ?_, ?_, ?_⟩ <;> intros <;> simp_all [racePoll]

/-- Witness for C2: with the left child ready with 1 and the right
pending, the draw `true` returns 1 polling only the left child, and the
draw `false` polls the right child first and then returns 1 from the
left. -/
theorem racePoll_order_spec_witness :
    racePoll (fun _ => Poll.Ready 1) (fun _ => (Poll.Pending : Poll Nat))
        true ⟨0, 0⟩ = (.Ready 1, ⟨1, 0⟩) ∧
    racePoll (fun _ => Poll.Ready 1) (fun _ => (Poll.Pending : Poll Nat))
        false ⟨0, 0⟩ = (.Ready 1, ⟨1, 1⟩) :=
  ⟨(racePoll_order_spec (fun _ => Poll.Ready 1)
      (fun _ => (Poll.Pending : Poll Nat)) ⟨0, 0⟩).1 1 rfl,
   (racePoll_order_spec (fun _ => Poll.Ready 1)
      (fun _ => (Poll.Pending : Poll Nat)) ⟨0, 0⟩).2.2.2.2.1 rfl 1 rfl⟩

/-- C9: with both children completing immediately with errors `e1` and
`e2`, `TryZip` polls the left child first and resolves to the left
error `e1`; the right child is not polled (its count stays 0). -/
theorem tryZip_both_err_left_wins {T1 T2 E : Type} (e1 e2 : E) :
    tryZipPoll (fun _ => (Poll.Ready (Result.Err e1) : Poll (Result T1 E)))
      (fun _ => (Poll.Ready (Result.Err e2) : Poll (Result T2 E)))
      (tryZipInit T1 T2 E)
      = (.Ready (.Err e1), ⟨1, 0, none, none⟩) := rfl

/-- C7: when the thread-local cache is already borrowed by an outer
invocation, `block_on` runs its poll loop with a freshly allocated
parker/waker pair, never with the cached one (the cached pair was
allocated before `nextId`, so the fresh id differs from it). -/
theorem block_on_reentrant_fresh_pair {T : Type} (cache : DriverCache)
    (nextId : Nat) (f : Nat → Nat → Poll T) (fuel : Nat)
    (hb : cache.borrowed = true) (halloc : cache.pairId < nextId) :
    (block_on cache nextId f fuel).2 ≠ cache.pairId ∧
    (block_on cache nextId f fuel).2 = (parkerAndWaker nextId).1 ∧
    (block_on cache nextId f fuel).1
      = pollLoop (f (parkerAndWaker nextId).1) fuel 0 := by
  refine ⟨?_, ?_, ?_⟩ <;> simp [block_on, hb, parkerAndWaker]
  omega

/-- Witness for C7: a nested call with the cache (pair id 0) borrowed
and one fresh id available uses pair 1, not the cached pair 0. -/
theorem block_on_reentrant_fresh_pair_witness :
    (block_on ⟨0, true⟩ 1 (fun _ _ => Poll.Ready 7) 1).2 ≠ 0 ∧
    (block_on ⟨0, true⟩ 1 (fun _ _ => Poll.Ready 7) 1).1 = some 7 :=
  ⟨(block_on_reentrant_fresh_pair ⟨0, true⟩ 1 (fun _ _ => Poll.Ready 7) 1
      rfl (by decide)).1,
   (block_on_reentrant_fresh_pair ⟨0, true⟩ 1 (fun _ _ => Poll.Ready 7) 1
      rfl (by decide)).2.2⟩

/-- C1: the first error observed in a `TryZip::poll` call causes
immediate completion with that error.  If the left child's poll returns
an error, the right child is not polled in that call (its count is
unchanged).  If the left block produces no early error and the right
child's poll returns an error, the call completes with that error, even
though the left child may be pending or never have completed. -/
theorem tryZip_first_error_short_circuits {T1 T2 E : Type}
    (f1 : Nat → Poll (Result T1 E)) (f2 : Nat → Poll (Result T2 E))
    (s : TryZipState T1 T2 E) (e : E) :
    (s.output1 = none → f1 s.count1 = .Ready (.Err e) →
      (tryZipPoll f1 f2 s).1 = .Ready (.Err e) ∧
      (tryZipPoll f1 f2 s).2.count2 = s.count2) ∧
    ((tryZipStep1 f1 s).2 = none → s.output2 = none →
      f2 s.count2 = .Ready (.Err e) →
      (tryZipPoll f1 f2 s).1 = .Ready (.Err e)) := by
  constructor
  · intro h1 hf1
    simp [tryZipPoll, tryZipStep1, h1, hf1]
  · intro h0 h2 hf2
    unfold tryZipPoll
    rcases hstep : tryZipStep1 f1 s with ⟨s1, err1⟩
    rw [hstep] at h0
    simp only [] at h0
    subst h0
    have hframe := tryZipStep1_frame f1 s
    rw [hstep] at hframe
    have hc : s1.count2 = s.count2 := hframe.1
    have ho : s1.output2 = none := by
      have := hframe.2
      simp only [] at this
      rw [this, h2]
    have hf : f2 s1.count2 = .Ready (.Err e) := by rw [hc, hf2]
    simp [tryZipStep2, ho, hf]

/-- Witness for C1: an immediately erroring left child short-circuits
with its error, and a pending left child with an immediately erroring
right child completes with the right child's error. -/
theorem tryZip_first_error_short_circuits_witness :
    (tryZipPoll (fun _ => (Poll.Ready (Result.Err 2) : Poll (Result Nat Nat)))
        (fun _ => (Poll.Ready (Result.Ok 1) : Poll (Result Nat Nat)))
        (tryZipInit Nat Nat Nat)).1 = .Ready (.Err 2) ∧
    (tryZipPoll (fun _ => (Poll.Pending : Poll (Result Nat Nat)))
        (fun _ => (Poll.Ready (Result.Err 5) : Poll (Result Nat Nat)))
        (tryZipInit Nat Nat Nat)).1 = .Ready (.Err 5) :=
  ⟨((tryZip_first_error_short_circuits
      (fun _ => (Poll.Ready (Result.Err 2) : Poll (Result Nat Nat)))
      (fun _ => (Poll.Ready (Result.Ok 1) : Poll (Result Nat Nat)))
      (tryZipInit Nat Nat Nat) 2).1 rfl rfl).1,
   (tryZip_first_error_short_circuits
      (fun _ => (Poll.Pending : Poll (Result Nat Nat)))
      (fun _ => (Poll.Ready (Result.Err 5) : Poll (Result Nat Nat)))
      (tryZipInit Nat Nat Nat) 5).2 rfl rfl rfl⟩

/-- C3: `TryZip::poll` never polls a child whose slot is already
filled (its count is unchanged by the whole call), a child is polled
only if its slot is empty, and a successful completion of a polled
child is stored into that child's slot by its block. -/
theorem tryZip_slot_discipline {T1 T2 E : Type}
    (f1 : Nat → Poll (Result T1 E)) (f2 : Nat → Poll (Result T2 E))
    (s : TryZipState T1 T2 E) :
    (s.output1.isSome → (tryZipPoll f1 f2 s).2.count1 = s.count1) ∧
    (s.output2.isSome → (tryZipPoll f1 f2 s).2.count2 = s.count2) ∧
    ((tryZipPoll f1 f2 s).2.count1 ≠ s.count1 → s.output1 = none) ∧
    ((tryZipPoll f1 f2 s).2.count2 ≠ s.count2 → s.output2 = none) ∧
    (∀ t, s.output1 = none → f1 s.count1 = .Ready (.Ok t) →
      tryZipStep1 f1 s
        = ({ s with count1 := s.count1 + 1, output1 := some (.Ok t) },
           none)) ∧
    (∀ t, s.output2 = none → f2 s.count2 = .Ready (.Ok t) →
      tryZipStep2 f2 s
        = ({ s with count2 := s.count2 + 1, output2 := some (.Ok t) },
           none)) := by
  have main1 : ∀ r, s.output1 = some r →
      (tryZipPoll f1 f2 s).2.count1 = s.count1 := by
    intro r hr
    unfold tryZipPoll
    rw [tryZipStep1_skip f1 s r hr]
    simp only []
    rcases hstep2 : tryZipStep2 f2 s with ⟨s2, err2⟩
    have hfr := tryZipStep2_frame f2 s
    rw [hstep2] at hfr
    rcases err2 with _ | e
    · simp only []
      rw [(tryZipFinish_frame s2).1, hfr.1]
    · simpa using hfr.1
  have main2 : ∀ r, s.output2 = some r →
      (tryZipPoll f1 f2 s).2.count2 = s.count2 := by
    intro r hr
    unfold tryZipPoll
    rcases hstep1 : tryZipStep1 f1 s with ⟨s1, err1⟩
    have hfr := tryZipStep1_frame f1 s
    rw [hstep1] at hfr
    rcases err1 with _ | e
    · simp only []
      have hs1o : s1.output2 = some r := by rw [hfr.2, hr]
      rw [tryZipStep2_skip f2 s1 r hs1o]
      simp only []
      rw [(tryZipFinish_frame s1).2, hfr.1]
    · simpa using hfr.1
  refine ⟨?_, ?_, ?_, ?_, ?_, ?_⟩
  · intro h
    rcases Option.isSome_iff_exists.mp h with ⟨r, hr⟩
    exact main1 r hr
  · intro h
    rcases Option.isSome_iff_exists.mp h with ⟨r, hr⟩
    exact main2 r hr
  · intro h
    rcases ho : s.output1 with _ | r
    · rfl
    · exact absurd (main1 r ho) h
  · intro h
    rcases ho : s.output2 with _ | r
    · rfl
    · exact absurd (main2 r ho) h
  · intro t h1 hf1
    simp [tryZipStep1, h1, hf1]
  · intro t h2 hf2
    simp [tryZipStep2, h2, hf2]

/-- Witness for C3: with a filled left slot the left count stays at 3,
and a left child completing with `Ok 7` from the initial state has
`Ok 7` stored into the left slot by its block. -/
theorem tryZip_slot_discipline_witness :
    (tryZipPoll (fun _ => (Poll.Pending : Poll (Result Nat Nat)))
        (fun _ => (Poll.Pending : Poll (Result Nat Nat)))
        ⟨3, 0, some (.Ok 1), none⟩).2.count1 = 3 ∧
    tryZipStep1 (fun _ => (Poll.Ready (Result.Ok 7) : Poll (Result Nat Nat)))
        (tryZipInit Nat Nat Nat)
      = (⟨1, 0, some (.Ok 7), none⟩, none) :=
  ⟨(tryZip_slot_discipline (fun _ => (Poll.Pending : Poll (Result Nat Nat)))
      (fun _ => (Poll.Pending : Poll (Result Nat Nat)))
      ⟨3, 0, some (.Ok 1), none⟩).1 rfl,
   (tryZip_slot_discipline
      (fun _ => (Poll.Ready (Result.Ok 7) : Poll (Result Nat Nat)))
      (fun _ => (Poll.Pending : Poll (Result Nat Nat)))
      (tryZipInit Nat Nat Nat)).2.2.2.2.1 7 rfl rfl⟩

/-- The first block stores only `Ok` values. -/
theorem tryZipStep1_slots {T1 T2 E : Type} (f1 : Nat → Poll (Result T1 E))
    (s : TryZipState T1 T2 E) (h : slotsOk s) :
    slotsOk (tryZipStep1 f1 s).1 := by
  rcases hs : s.output1 with _ | r
  · rcases hf : f1 s.count1 with t | _
    · rcases t with t | e <;>
        simp_all [tryZipStep1, hs, hf, slotsOk, slotOk]
    · simp_all [tryZipStep1, hs, hf, slotsOk, slotOk]
  · simp_all [tryZipStep1, hs, slotsOk, slotOk]

/-- The second block stores only `Ok` values. -/
theorem tryZipStep2_slots {T1 T2 E : Type} (f2 : Nat → Poll (Result T2 E))
    (s : TryZipState T1 T2 E) (h : slotsOk s) :
    slotsOk (tryZipStep2 f2 s).1 := by
  rcases hs : s.output2 with _ | r
  · rcases hf : f2 s.count2 with t | _
    · rcases t with t | e <;>
        simp_all [tryZipStep2, hs, hf, slotsOk, slotOk]
    · simp_all [tryZipStep2, hs, hf, slotsOk, slotOk]
  · simp_all [tryZipStep2, hs, slotsOk, slotOk]

/-- On slots holding only `Ok` values, the final unwrapping never runs
an `unreachable!()` arm, and it leaves the slots empty. -/
theorem tryZipFinish_no_panic {T1 T2 E : Type} (s : TryZipState T1 T2 E)
    (h : slotsOk s) :
    (tryZipFinish s).1 ≠ TZPoll.Panic ∧ slotsOk (tryZipFinish s).2 := by
  rcases h1 : s.output1 with _ | r1 <;> rcases h2 : s.output2 with _ | r2
  · simp_all [tryZipFinish, h1, h2, slotsOk, slotOk]
  · simp_all [tryZipFinish, h1, h2, slotsOk, slotOk]
  · simp_all [tryZipFinish, h1, h2, slotsOk, slotOk]
  · rcases r1 with t1 | e1 <;> rcases r2 with t2 | e2 <;>
      simp_all [tryZipFinish, h1, h2, slotsOk, slotOk]

/-- C10: the initial `TryZip` state has only-`Ok` slots, and from any
state whose slots hold only `Ok` values (errors are returned
immediately, never stored), a poll call preserves that invariant and
never executes an `unreachable!()` arm, so the final unwraps never
panic. -/
theorem tryZip_slots_ok_no_panic {T1 T2 E : Type}
    (f1 : Nat → Poll (Result T1 E)) (f2 : Nat → Poll (Result T2 E))
    (s : TryZipState T1 T2 E) (h : slotsOk s) :
    slotsOk (tryZipInit T1 T2 E) ∧
    (tryZipPoll f1 f2 s).1 ≠ TZPoll.Panic ∧
    slotsOk (tryZipPoll f1 f2 s).2 := by
  refine ⟨⟨trivial, trivial⟩, ?_⟩
  unfold tryZipPoll
  rcases hstep1 : tryZipStep1 f1 s with ⟨s1, err1⟩
  have hs1 : slotsOk s1 := by
    have := tryZipStep1_slots f1 s h
    rw [hstep1] at this
    exact this
  rcases err1 with _ | e
  · simp only []
    rcases hstep2 : tryZipStep2 f2 s1 with ⟨s2, err2⟩
    have hs2 : slotsOk s2 := by
      have := tryZipStep2_slots f2 s1 hs1
      rw [hstep2] at this
      exact this
    rcases err2 with _ | e
    · simpa using tryZipFinish_no_panic s2 hs2
    · exact ⟨by simp, hs2⟩
  · exact ⟨by simp, hs1⟩

/-- Witness for C10: one poll of a fresh `TryZip` whose left child
errors immediately neither panics nor stores an error. -/
theorem tryZip_slots_ok_no_panic_witness :
    (tryZipPoll (fun _ => (Poll.Ready (Result.Err 9) : Poll (Result Nat Nat)))
        (fun _ => (Poll.Pending : Poll (Result Nat Nat)))
        (tryZipInit Nat Nat Nat)).1 ≠ TZPoll.Panic :=
  (tryZip_slots_ok_no_panic
      (fun _ => (Poll.Ready (Result.Err 9) : Poll (Result Nat Nat)))
      (fun _ => (Poll.Pending : Poll (Result Nat Nat)))
      (tryZipInit Nat Nat Nat) ⟨trivial, trivial⟩).2.1

/-- With two `pendUntil` children succeeding at polls `k1` and `k2`,
the `TryZip` state after `m` calls is `tzRunState m`, for every `m` up
to the completing call `max k1 k2`. -/
theorem tryZipStates_pendUntil {T1 T2 E : Type} (k1 k2 : Nat) (t1 : T1)
    (t2 : T2) :
    ∀ m, m ≤ max k1 k2 →
      tryZipStates (pendUntil k1 (Result.Ok t1) : Nat → Poll (Result T1 E))
          (pendUntil k2 (Result.Ok t2) : Nat → Poll (Result T2 E)) m
        = tzRunState k1 k2 t1 t2 m := by
  intro m
  induction m with
  | zero =>
    intro _
    simp [tryZipStates, tryZipInit, tzRunState]
  | succ m ih =>
    intro h
    have hlt : m < max k1 k2 := by omega
    have ihm := ih (by omega)
    simp only [tryZipStates]
    rw [ihm]
    rcases Nat.lt_trichotomy m k1 with h1 | h1 | h1 <;>
      rcases Nat.lt_trichotomy m k2 with h2 | h2 | h2
    · -- both children still pending on this call
      have m1 : min m (k1 + 1) = m := by omega
      have m2 : min m (k2 + 1) = m := by omega
      have n1 : min (m + 1) (k1 + 1) = m + 1 := by omega
      have n2 : min (m + 1) (k2 + 1) = m + 1 := by omega
      have e1 : ¬ k1 < m := by omega
      have e2 : ¬ k2 < m := by omega
      have g1 : ¬ k1 < m + 1 := by omega
      have g2 : ¬ k2 < m + 1 := by omega
      simp [tzRunState, tryZipPoll, tryZipStep1, tryZipStep2,
            tryZipFinish, pendUntil, m1, m2, n1, n2, e1, e2, g1, g2,
            h1, h2]
    · -- the right child completes on this call, the left stays pending
      have m1 : min m (k1 + 1) = m := by omega
      have m2 : min m (k2 + 1) = m := by omega
      have n1 : min (m + 1) (k1 + 1) = m + 1 := by omega
      have n2 : min (m + 1) (k2 + 1) = m + 1 := by omega
      have e1 : ¬ k1 < m := by omega
      have e2 : ¬ k2 < m := by omega
      have g1 : ¬ k1 < m + 1 := by omega
      have g2 : k2 < m + 1 := by omega
      have p2 : ¬ m < k2 := by omega
      simp [tzRunState, tryZipPoll, tryZipStep1, tryZipStep2,
            tryZipFinish, pendUntil, m1, m2, n1, n2, e1, e2, g1, g2,
            h1, p2]
    · -- the right slot is already filled, the left stays pending
      have m1 : min m (k1 + 1) = m := by omega
      have m2 : min m (k2 + 1) = k2 + 1 := by omega
      have n1 : min (m + 1) (k1 + 1) = m + 1 := by omega
      have n2 : min (m + 1) (k2 + 1) = k2 + 1 := by omega
      have e1 : ¬ k1 < m := by omega
      have g1 : ¬ k1 < m + 1 := by omega
      have g2 : k2 < m + 1 := by omega
      simp [tzRunState, tryZipPoll, tryZipStep1, tryZipStep2,
            tryZipFinish, pendUntil, m1, m2, n1, n2, e1, g1, g2,
            h1, h2]
    · -- the left child completes on this call, the right stays pending
      have m1 : min m (k1 + 1) = m := by omega
      have m2 : min m (k2 + 1) = m := by omega
      have n1 : min (m + 1) (k1 + 1) = m + 1 := by omega
      have n2 : min (m + 1) (k2 + 1) = m + 1 := by omega
      have e1 : ¬ k1 < m := by omega
      have e2 : ¬ k2 < m := by omega
      have g1 : k1 < m + 1 := by omega
      have g2 : ¬ k2 < m + 1 := by omega
      have p1 : ¬ m < k1 := by omega
      simp [tzRunState, tryZipPoll, tryZipStep1, tryZipStep2,
            tryZipFinish, pendUntil, m1, m2, n1, n2, e1, e2, g1, g2,
            p1, h2]
    · -- both completing on the same call would be the completing call
      omega
    · omega
    · -- the left slot is already filled, the right stays pending
      have m1 : min m (k1 + 1) = k1 + 1 := by omega
      have m2 : min m (k2 + 1) = m := by omega
      have n1 : min (m + 1) (k1 + 1) = k1 + 1 := by omega
      have n2 : min (m + 1) (k2 + 1) = m + 1 := by omega
      have e2 : ¬ k2 < m := by omega
      have g1 : k1 < m + 1 := by omega
      have g2 : ¬ k2 < m + 1 := by omega
      simp [tzRunState, tryZipPoll, tryZipStep1, tryZipStep2,
            tryZipFinish, pendUntil, m1, m2, n1, n2, e2, g1, g2,
            h1, h2]
    · omega
    · omega

/-- C4: when both children eventually succeed — the left is pending for
`k1` polls and then completes with `Ok t1`, the right for `k2` polls
and then `Ok t2` — the `TryZip` poll call number `max k1 k2` (counting
from 0) completes with `Ok (t1, t2)`. -/
theorem tryZip_both_success {T1 T2 E : Type} (k1 k2 : Nat) (t1 : T1)
    (t2 : T2) :
    (tryZipPoll (pendUntil k1 (Result.Ok t1) : Nat → Poll (Result T1 E))
        (pendUntil k2 (Result.Ok t2) : Nat → Poll (Result T2 E))
        (tryZipStates (pendUntil k1 (Result.Ok t1))
          (pendUntil k2 (Result.Ok t2)) (max k1 k2))).1
      = TZPoll.Ready (.Ok (t1, t2)) := by
  rw [tryZipStates_pendUntil k1 k2 t1 t2 (max k1 k2) le_rfl]
  rcases Nat.lt_trichotomy k1 k2 with h | h | h
  · -- the right child completes last, on call k2
    have hmax : max k1 k2 = k2 := by omega
    have m1 : min k2 (k1 + 1) = k1 + 1 := by omega
    have m2 : min k2 (k2 + 1) = k2 := by omega
    have d1 : k1 < k2 := h
    have e2 : ¬ k2 < k2 := by omega
    have p2 : ¬ k2 < k2 := by omega
    simp [hmax, tzRunState, tryZipPoll, tryZipStep1, tryZipStep2,
          tryZipFinish, pendUntil, m1, m2, d1, e2, p2]
  · -- both children complete on the same call
    have hmax : max k1 k2 = k1 := by omega
    have m1 : min k1 (k1 + 1) = k1 := by omega
    have m2 : min k1 (k2 + 1) = k1 := by omega
    have e1 : ¬ k1 < k1 := by omega
    have e2 : ¬ k2 < k1 := by omega
    have p2 : ¬ k1 < k2 := by omega
    simp [hmax, tzRunState, tryZipPoll, tryZipStep1, tryZipStep2,
          tryZipFinish, pendUntil, m1, m2, e1, e2, p2]
  · -- the left child completes last, on call k1
    have hmax : max k1 k2 = k1 := by omega
    have m1 : min k1 (k1 + 1) = k1 := by omega
    have m2 : min k1 (k2 + 1) = k2 + 1 := by omega
    have d2 : k2 < k1 := h
    have e1 : ¬ k1 < k1 := by omega
    simp [hmax, tzRunState, tryZipPoll, tryZipStep1, tryZipStep2,
          tryZipFinish, pendUntil, m1, m2, d2, e1]

end FuturesLite
